import Mathlib

/-!
Verification development for the Meshtastic hybrid LLM bridge
(`meshtastic_mqtt_client.py`, `meshtastic_tcp_client.py`,
`meshtastic_hybrid_client.py`).

The embedding models JSON documents to the two nesting levels the message
classifier actually inspects (a top-level object whose values are atoms or
one-level objects of atoms), Python strings as `String` / `List Char`, the
float second-counts of the connect backoff as `ℚ` (all values involved are
exactly representable dyadic rationals, so float arithmetic there is exact),
and network sends as oracle-driven outcome streams.  Paths on which the
Python code raises and the surrounding handler merely logs and drops the
message are modeled as the drop itself.
-/

namespace MeshBridge

/-! ## JSON value model (two levels, as inspected by `_on_message`) -/

/-- A JSON atom: string, number, or `null` (Python `None`). -/
inductive JAtom where
  | str (s : String)
  | num (n : Int)
  | null
deriving DecidableEq, Repr

/-- A value stored in a top-level JSON object: an atom or a one-level object
of atoms (the shape of the `payload` field the classifier looks into). -/
inductive JVal where
  | atom (a : JAtom)
  | obj (fields : List (String × JAtom))
deriving DecidableEq, Repr

/-- A parsed JSON document: an atom (a non-dict document, on which
`data.get` raises) or a top-level object. -/
inductive JDoc where
  | atom (a : JAtom)
  | obj (fields : List (String × JVal))
deriving DecidableEq, Repr

/-- First-match association-list lookup (Python dict keys are unique, so the
first match is the only one). -/
def lookupField {α : Type} : List (String × α) → String → Option α
  | [], _ => none
  | (k, v) :: rest, key => if k = key then some v else lookupField rest key

def JDoc.get? : JDoc → String → Option JVal
  | .atom _, _ => none
  | .obj l, k => lookupField l k

/-- Python `data.get(k, dflt)` on a top-level dict. -/
def JDoc.getD (d : JDoc) (k : String) (dflt : JVal) : JVal := (d.get? k).getD dflt

def JDoc.isObj : JDoc → Bool
  | .atom _ => false
  | .obj _ => true

/-- Python `k in data`. -/
def JDoc.hasKey (d : JDoc) (k : String) : Bool := (d.get? k).isSome

def JVal.get? : JVal → String → Option JAtom
  | .atom _, _ => none
  | .obj l, k => lookupField l k

/-- Python `payload.get(k, dflt)` on an inner dict. -/
def JVal.getD (v : JVal) (k : String) (dflt : JAtom) : JAtom := (v.get? k).getD dflt

def JVal.isObj : JVal → Bool
  | .atom _ => false
  | .obj _ => true

def JVal.hasKey (v : JVal) (k : String) : Bool := (v.get? k).isSome

/-- Python truthiness of an atom: empty string, `0` and `None` are falsy. -/
def JAtom.truthy : JAtom → Bool
  | .str s => decide (s ≠ "")
  | .num n => decide (n ≠ 0)
  | .null => false

/-- Python truthiness of a value: an empty dict is falsy. -/
def JVal.truthy : JVal → Bool
  | .atom a => a.truthy
  | .obj l => !l.isEmpty

/-- Python `str()` of an atom. -/
def JAtom.pyStr : JAtom → String
  | .str s => s
  | .num n => toString n
  | .null => "None"

/-- Python `str()` of a value.  No modeled code path relies on the exact
rendering of a dict, so a placeholder is used there. -/
def JVal.pyStr : JVal → String
  | .atom a => a.pyStr
  | .obj _ => "dict"

/-- Shorthand for a string value. -/
def jstr (s : String) : JVal := JVal.atom (JAtom.str s)

/-- Python `a or b` (value-returning, truthiness-driven). -/
def pyOr (a b : JVal) : JVal := if a.truthy then a else b

/-! ## Message model and classifier (`MeshtasticMqttClient._on_message`) -/

/-- The message dict built by `_on_message` (the fields the bridge reads;
`sender`, `timestamp`, `channel` and `packet_id` are carried but never
branch the control flow and are omitted). -/
structure Msg where
  text : JVal
  from_id : JVal
  to_id : JVal
  is_direct : Bool
  is_llm_channel : Bool
deriving DecidableEq, Repr

/-- The startup-banner marker `_on_message` tests with `text.startswith`
(self-echo suppression), exactly as written in `meshtastic_mqtt_client.py`
line 312: it begins with U+1F4E2. -/
def startupMarker : String := "📢 LLM Agent is now online"

/-- The startup banner `MeshtasticHybridClient.send_startup_messages`
sends.  In the source file the literal's first four code points are
U+00F0 U+0178 U+201C U+00A2 ("ðŸ“¢", the UTF-8 bytes of U+1F4E2 decoded as
Latin-1), not U+1F4E2: the bytes on disk are c3 b0 c5 b8 e2 80 9c c2 a2. -/
def startupBanner : String :=
  "ðŸ“¢ LLM Agent is now online and ready for conversations!"

/-- The optional suffixes `send_startup_messages` appends to the banner. -/
def startupBannerFull (privateMode useLlm : Bool) (llmChannel : String) : String :=
  startupBanner
    ++ (if privateMode then " (Private mode: only responding to direct messages)" else "")
    ++ (if useLlm then " (Listening on channel: " ++ llmChannel ++ ")" else "")

/-- Python `topic.split('/')` (on characters; `split` keeps empty parts and
never yields an empty list). -/
def splitSlash (s : List Char) : List (List Char) :=
  match s with
  | [] => [[]]
  | c :: rest =>
    let r := splitSlash rest
    if c = '/' then [] :: r
    else
      match r with
      | [] => [[c]]
      | seg :: segs => (c :: seg) :: segs

/-- Sender id recovered from the topic suffix: `topic.split('/')[-1]` if it
starts with the `!` sigil, else `"unknown"`. -/
def topicFromId (topic : String) : String :=
  match (splitSlash topic.data).getLastD [] with
  | '!' :: rest => String.mk ('!' :: rest)
  | _ => "unknown"

/-- Guard of matcher (a): `data.get('type','') == 'text' and
isinstance(data.get('payload'), dict)`. -/
def case1Guard (data : JDoc) : Bool :=
  decide (data.getD "type" (jstr "") = jstr "text")
    && (data.getD "payload" (JVal.atom JAtom.null)).isObj

/-- Matcher (a), the native Meshtastic `text` shape: builds the message and
hands it to `_process_message` directly, skipping the empty-text and
banner-echo filters (the `return` at the end of this branch fires before
they run).  `is_direct` here is `to_id != "broadcast" and
to_id != 4294967295`; since `to_id` was built with `str(...)` the integer
comparison is vacuously true and the test reduces to the broadcast check. -/
def classifyCase1 (data : JDoc) : Option Msg :=
  let p := data.getD "payload" (JVal.atom JAtom.null)
  let text := JVal.atom (p.getD "text" (JAtom.str ""))
  let from_id := pyOr (data.getD "sender" (JVal.atom JAtom.null))
      (jstr (data.getD "from" (jstr "")).pyStr)
  let to_id := jstr (data.getD "to" (jstr "broadcast")).pyStr
  if text.truthy then
    some { text := text, from_id := from_id, to_id := to_id,
           is_direct := decide (to_id ≠ jstr "broadcast"), is_llm_channel := true }
  else none

/-- Common tail of matchers (b)-(e) and the raw-text fallback: drop if the
text is falsy, drop if it starts with the banner marker (on a non-string
text `startswith` raises and the handler drops the message), otherwise
build the dedicated-channel message with `is_direct = True`. -/
def classifyCommon (text from_id to_id : JVal) : Option Msg :=
  if ¬text.truthy then none
  else
    match text with
    | JVal.atom (JAtom.str s) =>
      if startupMarker.data.isPrefixOf s.data then none
      else
        some { text := text, from_id := from_id,
               to_id := pyOr to_id (jstr "broadcast"),
               is_direct := true, is_llm_channel := true }
    | _ => none

/-- First key of `keys` whose value in `data` is a string (matcher (e)'s
text scan: `if key in data and isinstance(data[key], str)`). -/
def firstStrVal (data : JDoc) : List String → Option String
  | [] => none
  | k :: rest =>
    match data.get? k with
    | some (JVal.atom (JAtom.str s)) => some s
    | _ => firstStrVal data rest

/-- First key of `keys` present in `data` (matcher (e)'s sender scan). -/
def firstVal (data : JDoc) : List String → Option JVal
  | [] => none
  | k :: rest =>
    match data.get? k with
    | some v => some v
    | none => firstVal data rest

/-- The dedicated-channel (LLM-channel) branch of `_on_message`: the message
passed to `_process_message`, or `none` when the input is dropped.
`parsed = none` models a `json.JSONDecodeError`; a non-dict document makes
`data.get` raise and the handler drops the message. -/
def classifyLlm (topic : String) (rawPayload : String) (parsed : Option JDoc) : Option Msg :=
  match parsed with
  | some data =>
    if ¬data.isObj then none
    else if case1Guard data then classifyCase1 data
    else if decide (data.getD "type" (jstr "") = jstr "sendtext")
        && (data.getD "payload" (JVal.atom JAtom.null)).isObj then
      -- matcher (b): custom sendtext shape
      let p := data.getD "payload" (JVal.atom JAtom.null)
      let text := JVal.atom (p.getD "text" (JAtom.str ""))
      let from_id := pyOr ((p.get? "from_id").elim (JVal.atom JAtom.null) JVal.atom)
          (jstr (data.getD "from" (jstr "")).pyStr)
      let to_id := (p.get? "to_id").elim (JVal.atom JAtom.null) JVal.atom
      classifyCommon text from_id to_id
    else if (data.getD "payload" (JVal.atom JAtom.null)).isObj
        && (data.getD "payload" (JVal.atom JAtom.null)).hasKey "text" then
      -- matcher (c): any payload object containing a text key
      let p := data.getD "payload" (JVal.atom JAtom.null)
      let text := ((p.get? "text").elim (JVal.atom JAtom.null) JVal.atom)
      let from_id := pyOr (data.getD "sender" (JVal.atom JAtom.null))
          (jstr (data.getD "from" (jstr "")).pyStr)
      let to_id := jstr (data.getD "to" (jstr "broadcast")).pyStr
      classifyCommon text from_id to_id
    else if data.hasKey "text" then
      -- matcher (d): top-level text key
      let text := data.getD "text" (jstr "")
      let from_id := pyOr (data.getD "from_id" (JVal.atom JAtom.null))
          (data.getD "sender" (jstr "unknown"))
      let to_id := pyOr (data.getD "to_id" (JVal.atom JAtom.null))
          (data.getD "to" (jstr "broadcast"))
      classifyCommon text from_id to_id
    else
      -- matcher (e): heuristic scan
      let text := match firstStrVal data ["text", "message", "content", "body"] with
        | some s => if s = "" then jstr rawPayload else jstr s
        | none => jstr rawPayload
      let from_id := match firstVal data ["from", "from_id", "sender", "user", "userId"] with
        | some v => jstr v.pyStr
        | none => jstr (topicFromId topic)
      classifyCommon text from_id (JVal.atom JAtom.null)
  | none =>
    -- raw-text fallback: the whole payload is the text
    classifyCommon (jstr rawPayload) (jstr (topicFromId topic)) (JVal.atom JAtom.null)

/-- The regular-topic branch of `_on_message`: the message queued for the
worker, or `none` when the input is dropped (invalid JSON, non-dict JSON,
or `fromId == self.my_node_id`).  `myNodeId` is `self.my_node_id`, with
`JVal.atom JAtom.null` standing for the initial Python `None`. -/
def classifyRegular (myNodeId : JVal) (parsed : Option JDoc) : Option Msg :=
  match parsed with
  | none => none
  | some data =>
    if ¬data.isObj then none
    else
      let from_node_id := data.getD "fromId" (jstr "unknown")
      let to_node_id := data.getD "toId" (jstr "broadcast")
      let text := data.getD "text" (jstr "")
      if from_node_id = myNodeId then none
      else
        some { text := text, from_id := from_node_id, to_id := to_node_id,
               is_direct := decide (to_node_id ≠ jstr "broadcast"),
               is_llm_channel := false }

/-- `MeshtasticMqttClient._process_message` up to the Responder call:
`true` iff the message callback (the Responder) is invoked.  The message is
dropped on falsy text, on `from_id == self.my_node_id`, and on
`from_id == "llm_agent"`; a non-string text makes the `text[:50]` slice in
the entry log raise, and the handler drops the message. -/
def processMessage (myNodeId : JVal) (msg : Msg) : Bool :=
  match msg.text with
  | JVal.atom (JAtom.str s) =>
    if s = "" then false
    else if msg.from_id = myNodeId ∨ msg.from_id = jstr "llm_agent" then false
    else true
  | _ => false

/-- Whether a dedicated-channel input reaches the Responder (matcher (a)
calls `_process_message` synchronously; so does the common path). -/
def llmResponderReached (myNodeId : JVal) (topic rawPayload : String)
    (parsed : Option JDoc) : Bool :=
  match classifyLlm topic rawPayload parsed with
  | some m => processMessage myNodeId m
  | none => false

/-- Whether a regular-topic input reaches the Responder (queued, then
handled by the single worker through `_process_message`). -/
def regularResponderReached (myNodeId : JVal) (parsed : Option JDoc) : Bool :=
  match classifyRegular myNodeId parsed with
  | some m => processMessage myNodeId m
  | none => false

/-- The node-info branch of `_on_message`: records the node id as the
bridge's self-identity when the node's `longName` is the identity label
`"llm_agent"`.  (If `user` is present but not a dict, Python raises and the
identity is unchanged; that coincides with the default-then-mismatch path
here.) -/
def recordNodeInfo (myNodeId : JVal) (data : JDoc) : JVal :=
  if ¬data.isObj then myNodeId
  else
    let node_id := data.getD "num" (jstr "unknown")
    let node_name := (data.getD "user" (JVal.obj [])).getD "longName" (JAtom.str "unknown")
    if node_name = JAtom.str "llm_agent" then node_id else myNodeId

/-! ## Outbound Link (`MeshtasticTcpClient`) -/

/-- The capped wait `min(2.0 + attempt * 0.5, 5.0)` that `connect` sleeps
after opening the interface, waiting for the session to establish (the only
ceiling constant in `connect`). -/
def establishWait (attempt : Nat) : ℚ := min (2 + (attempt : ℚ) / 2) 5

/-- The backoff `retry_delay * (2 ** attempt)` that `connect` sleeps before
the next attempt; the code applies no cap to it. -/
def backoffDelay (retry_delay : ℚ) (attempt : Nat) : ℚ := retry_delay * 2 ^ attempt

/-- The retry loop of `MeshtasticTcpClient.connect`: `fails i` says attempt
`i` fails (either the interface constructor or the node-info query raises —
both failure sites sleep the same backoff).  Returns the list of backoff
sleeps performed and the boolean result.  The second argument counts the
attempts still allowed after the current one (`max_retries - attempt`). -/
def tcpConnectGo (retry_delay : ℚ) (fails : Nat → Bool) (attempt : Nat) :
    Nat → List ℚ × Bool
  | 0 => if fails attempt then ([], false) else ([], true)
  | r + 1 =>
    if fails attempt then
      let rest := tcpConnectGo retry_delay fails (attempt + 1) r
      (backoffDelay retry_delay attempt :: rest.1, rest.2)
    else ([], true)

/-- `MeshtasticTcpClient.connect(max_retries, retry_delay)` (defaults:
`max_retries = 4`, `retry_delay = 2.0`): backoff sleeps and result. -/
def tcpConnect (retry_delay : ℚ) (fails : Nat → Bool) (max_retries : Nat) :
    List ℚ × Bool :=
  tcpConnectGo retry_delay fails 0 max_retries

/-- The chunk-size literal `max_chunk_size = 190` of `send_message` and
`send_to_channel`. -/
def maxChunkSize : Nat := 190

/-- The chunk split `message[i:i+190] for i in range(0, len(message), 190)`
(one chunk containing the whole message when it is at most 190 long, the
empty message included).  Fuel-indexed for structural recursion; each step
removes 190 characters, so `s.length` fuel always suffices. -/
def chunksOfGo : Nat → List Char → List (List Char)
  | 0, s => [s]
  | fuel + 1, s =>
    if s.length ≤ maxChunkSize then [s]
    else s.take maxChunkSize :: chunksOfGo fuel (s.drop maxChunkSize)

/-- The chunk list `send_message` computes for a message. -/
def chunksOf (s : List Char) : List (List Char) := chunksOfGo s.length s

/-- The chunk marker `f"[{i+1}/{n}] "` prepended when there is more than one
chunk. -/
def chunkTag (i n : Nat) : List Char :=
  ("[" ++ toString i ++ "/" ++ toString n ++ "] ").data

/-- The texts `send_message` passes to `sendText`, in order: the chunks,
each tagged with its index when the chunk count exceeds one. -/
def sentChunks (msg : List Char) : List (List Char) :=
  let chunks := chunksOf msg
  if chunks.length > 1 then
    chunks.enum.map (fun p => chunkTag (p.1 + 1) chunks.length ++ p.2)
  else chunks

/-- UTF-8 byte count of a text — what a byte-based chunk bound would
measure.  The code's `len(message)`/`message[i:i+190]` count characters
(Python str indexing), so the two measures diverge on non-ASCII text. -/
def utf8Len (s : List Char) : Nat := (s.map Char.utf8Size).sum

/-- Outcome of one `interface.sendText` call. -/
inductive SendOutcome where
  | ok
  | reset
  | err
deriving DecidableEq, Repr

/-- The chunk-send loop of `send_message`, driven by an outcome stream (one
outcome per `sendText` call; an exhausted stream sends cleanly).  On a
transport reset (`BrokenPipeError` / `ConnectionResetError`) the handler
reconnects once and, if that succeeds, retries with a single `sendText` of
the whole original message — not the chunk list — and any exception on that
retry is a plain failure.  Any other error is a plain failure.  Returns the
texts passed to `sendText`, in order, and the boolean result. -/
def sendChunksLoop (full : List Char) (reconnectOk : Bool) :
    List (List Char) → List SendOutcome → List (List Char) × Bool
  | [], _ => ([], true)
  | c :: rest, events =>
    match events.headD SendOutcome.ok with
    | SendOutcome.ok =>
      let r := sendChunksLoop full reconnectOk rest events.tail
      (c :: r.1, r.2)
    | SendOutcome.reset =>
      if reconnectOk then
        ([c, full], decide (events.tail.headD SendOutcome.ok = SendOutcome.ok))
      else ([c], false)
    | SendOutcome.err => ([c], false)

/-- `MeshtasticTcpClient.send_message`: `ensureOk` is the initial
`_ensure_connected`, `reconnectOk` the one inside the reset handler. -/
def sendMessage (msg : List Char) (ensureOk reconnectOk : Bool)
    (events : List SendOutcome) : List (List Char) × Bool :=
  if ensureOk then sendChunksLoop msg reconnectOk (sentChunks msg) events
  else ([], false)

/-- Case-insensitive string equality (`a.lower() == b.lower()`). -/
def lowerEq (a b : String) : Bool :=
  decide (a.data.map Char.toLower = b.data.map Char.toLower)

/-- Python substring test `ndl in hay` on character lists. -/
def isInfixList (ndl : List Char) : List Char → Bool
  | [] => ndl.isEmpty
  | c :: rest => ndl.isPrefixOf (c :: rest) || isInfixList ndl rest

/-- Channel-name resolution of `send_to_channel`: exact case-insensitive
match first, then case-insensitive substring match, else the hardcoded
default index 2.  A `none` entry is a channel without a readable
`settings.name`. -/
def resolveChannelIndex (channels : List (Option String)) (channelName : String) : Nat :=
  match channels.findIdx? (fun c =>
      match c with
      | some n => lowerEq n channelName
      | none => false) with
  | some i => i
  | none =>
    match channels.findIdx? (fun c =>
        match c with
        | some n => isInfixList (channelName.data.map Char.toLower)
            (n.data.map Char.toLower)
        | none => false) with
    | some i => i
    | none => 2

/-- The chunk loop of `send_to_channel`, with its recursive
reconnect-and-retry: on a reset, if the reconnect succeeds, the code
re-enters the whole call (`return self.send_to_channel(message,
channel_name)`) with no retry counter.  Returns the result and the number
of entire-call attempts performed.  Fuel-indexed; every step consumes an
event or a chunk, so `events.length + chunks.length + 1` fuel suffices. -/
def stcLoop (reconnectOk : Bool) (chunks0 : List (List Char)) :
    Nat → List (List Char) → List SendOutcome → Bool × Nat
  | _, [], _ => (true, 1)
  | 0, _ :: _, _ => (false, 1)
  | fuel + 1, _ :: rest, events =>
    match events.headD SendOutcome.ok with
    | SendOutcome.ok => stcLoop reconnectOk chunks0 fuel rest events.tail
    | SendOutcome.err => (false, 1)
    | SendOutcome.reset =>
      if reconnectOk then
        let r := stcLoop reconnectOk chunks0 fuel chunks0 events.tail
        (r.1, r.2 + 1)
      else (false, 1)

/-- `MeshtasticTcpClient.send_to_channel`: result and number of entire-call
attempts.  The resolved channel index only selects the device channel the
chunks go to; it does not affect the send/retry control flow. -/
def sendToChannel (msg : List Char) (channels : List (Option String))
    (channelName : String) (ensureOk reconnectOk : Bool)
    (events : List SendOutcome) : Bool × Nat :=
  if ensureOk then
    let chunks := chunksOf msg
    let _idx := resolveChannelIndex channels channelName
    stcLoop reconnectOk chunks (events.length + chunks.length + 1) chunks events
  else (false, 1)

/-! ## Router / Bridge (`MeshtasticHybridClient`) -/

/-- `MeshtasticHybridClient.connect`: MQTT (Inbound) failure is fatal; a TCP
(Outbound) failure is overridden to success (degraded MQTT-only mode). -/
def hybridConnect (mqttOk tcpOk : Bool) : Bool :=
  if ¬mqttOk then false
  else
    let connected := mqttOk && tcpOk
    let connected := if mqttOk && !tcpOk then true else connected
    connected

/-- One observable reply step of `_send_response_via_tcp`. -/
inductive ReplyAction where
  | tcpSend (direct : Bool) (ok : Bool)
  | tcpChannel (channelName : String) (ok : Bool)
  | mqttPublish (ok : Bool)
deriving DecidableEq, Repr

/-- The channel name `_send_response_via_tcp` derives from the response
topic: the last non-empty `/`-separated part, else `"llmres"`. -/
def channelNameOf (rc : String) : String :=
  match ((splitSlash rc.data).filter (fun p => !p.isEmpty)).getLast? with
  | some n => String.mk n
  | none => "llmres"

/-- The dedicated-channel tail of a `_send_response_via_tcp` iteration: for
an LLM-channel message (with the feature enabled), try
`tcp_client.send_to_channel`; on failure fall back to the MQTT publish
`publish_to_llm_response_channel` through
`_send_response_via_mqtt_llm_channel`. -/
def llmChannelStep (isLlm useLlm : Bool) (respChannel : Option String)
    (stcOk mqttOk : Bool) : List ReplyAction :=
  if isLlm && useLlm then
    match respChannel with
    | some rc =>
      ReplyAction.tcpChannel (channelNameOf rc) stcOk ::
        (if stcOk then [] else [ReplyAction.mqttPublish mqttOk])
    | none => []
  else []

/-- The `for attempt in range(max_retries + 1)` loop of
`_send_response_via_tcp`: each iteration calls `tcp_client.send_message`;
on failure with attempts left it `continue`s, otherwise (success, or the
last attempt) it falls through to the dedicated-channel tail and returns.
`sm i` is the result of the `send_message` call of attempt `i`. -/
def replyLoop (direct : Bool) (sm : Nat → Bool) (tail : List ReplyAction) :
    Nat → Nat → List ReplyAction
  | attempt, 0 => ReplyAction.tcpSend direct (sm attempt) :: tail
  | attempt, r + 1 =>
    if sm attempt then ReplyAction.tcpSend direct true :: tail
    else ReplyAction.tcpSend direct false :: replyLoop direct sm tail (attempt + 1) r

/-- `MeshtasticHybridClient._send_response_via_tcp` as its trace of reply
actions (`max_retries = 2` as in the source; the response goes direct when
`private_mode or is_direct`). -/
def sendResponseViaTcp (privateMode isDirect isLlm useLlm : Bool)
    (respChannel : Option String) (sm : Nat → Bool) (stcOk mqttOk : Bool) :
    List ReplyAction :=
  replyLoop (privateMode || isDirect) sm
    (llmChannelStep isLlm useLlm respChannel stcOk mqttOk) 0 2

/-! ## Theorems -/

/-- Helper: with every attempt failing, the connect loop records exactly the
uncapped exponential backoffs and reports failure. -/
lemma tcpConnectGo_allFail (base : ℚ) :
    ∀ (r a : Nat), tcpConnectGo base (fun _ => true) a r
      = (((List.range r).map fun i => backoffDelay base (a + i)), false) := by
  intro r
  induction r with
  | zero => intro a; simp [tcpConnectGo]
  | succ n ih =>
    intro a
    have h2 : ((List.range n).map fun i => backoffDelay base (a + 1 + i))
        = (List.range n).map ((fun i => backoffDelay base (a + i)) ∘ Nat.succ) := by
      refine List.map_congr_left fun i _ => ?_
      show backoffDelay base (a + 1 + i) = backoffDelay base (a + (i + 1))
      congr 1
      omega
    simp only [tcpConnectGo, ih, List.range_succ_eq_map, List.map_cons, List.map_map,
      Nat.add_zero, if_true, h2]

/-- C2 (amended): in Outbound `connect(max_retries, base_delay)` the wait
inserted before attempt `i+1` equals `base_delay · 2^i` with no cap applied,
for every `i = 0..max_retries-1`, and once the retries are exhausted
`connect` returns failure. -/
theorem c2_backoff_amended (base : ℚ) (m : Nat) :
    (tcpConnect base (fun _ => true) m).1 = (List.range m).map (fun i => base * 2 ^ i) ∧
    (tcpConnect base (fun _ => true) m).2 = false := by
  rw [tcpConnect, tcpConnectGo_allFail]
  exact ⟨by simp [backoffDelay], rfl⟩

/-- C2 counterexample: with the default `retry_delay = 2.0` and
`max_retries = 4` and every attempt failing, the backoff waits are
`[2, 4, 8, 16]`.  The only configured ceiling in `connect` is the `5.0` of
the establish wait (`min(2.0 + attempt*0.5, 5.0)`, saturated from attempt 6
on), and the fourth backoff wait `16 = 2·2³` exceeds it: the backoff is not
"capped at the configured maximum" as the claim states. -/
theorem c2_uncapped_counterexample :
    (tcpConnect 2 (fun _ => true) 4).1 = [2, 4, 8, 16] ∧
    establishWait 6 = 5 ∧ ¬((16 : ℚ) ≤ 5) := by
  refine ⟨?_, ?_, by norm_num⟩
  · rw [tcpConnect, tcpConnectGo_allFail]
    norm_num [backoffDelay, List.range_succ]
  · norm_num [establishWait]

/-- C4: `send_to_channel` with a single sub-190 chunk, `sendText` raising a
transport reset twice and then succeeding, and every reconnect succeeding,
performs three entire-call attempts (two reconnect-then-retries) and
reports success — the recursive retry carries no counter, so it is not
bounded to one as both the claim and the code's own comment
("Recursive call with one less retry") state. -/
theorem c4_unbounded_retry_eval :
    sendToChannel "hi".data [some "Primary", some "LLM"] "LLM" true true
      [SendOutcome.reset, SendOutcome.reset, SendOutcome.ok] = (true, 3) := by
  decide

/-- C7: Bridge `connect()` returns failure whenever the Inbound (MQTT) link
fails to connect, and returns success whenever the Inbound link connects,
even if the Outbound (TCP) link connection fails. -/
theorem c7_connect_policy :
    (∀ tcpOk, hybridConnect false tcpOk = false) ∧
    (∀ tcpOk, hybridConnect true tcpOk = true) := by
  decide

/-- C9: the startup banner the Bridge sends is NOT identical to the
self-echo-suppression marker — its first characters are a mojibake
rendering of the marker's U+1F4E2 and it carries an extra suffix — and the
marker is not even a prefix of it, so a dedicated-channel echo of the
banner text is not suppressed and reaches the Responder. -/
theorem c9_banner_marker_eval :
    ¬(startupBanner = startupMarker) ∧
    startupMarker.data.isPrefixOf startupBanner.data = false ∧
    startupBanner.data.isPrefixOf startupMarker.data = false ∧
    llmResponderReached (JVal.atom JAtom.null) "msh/US/2/json/llm" startupBanner none
      = true := by
  exact ⟨by decide, by decide, by decide, by decide⟩

/-- C3 counterexample: the payload
`{"type":"text","payload":{"text":<marker>},"from":42}` on the dedicated
topic is classified by matcher (a); its classified text equals the
startup-banner marker, yet the message is handed to `_process_message`
(which has no banner filter) and reaches the Responder — matcher (a)'s
branch returns before the banner-echo filter runs. -/
theorem c3_case1_bypass_counterexample :
    classifyLlm "msh/US/2/json/llm" ""
        (some (JDoc.obj [("type", jstr "text"),
                         ("payload", JVal.obj [("text", JAtom.str startupMarker)]),
                         ("from", JVal.atom (JAtom.num 42))]))
      = some { text := jstr startupMarker, from_id := jstr "42",
               to_id := jstr "broadcast", is_direct := false, is_llm_channel := true } ∧
    startupMarker.data.isPrefixOf startupMarker.data = true ∧
    llmResponderReached (JVal.atom JAtom.null) "msh/US/2/json/llm" ""
        (some (JDoc.obj [("type", jstr "text"),
                         ("payload", JVal.obj [("text", JAtom.str startupMarker)]),
                         ("from", JVal.atom (JAtom.num 42))]))
      = true := by
  exact ⟨by decide, by decide, by decide⟩

/-- C3 (amended): every dedicated-channel inbound message classified
through the common path — matchers (b)-(e) or the raw-text fallback —
whose text equals or prefix-matches the configured startup-banner marker is
dropped and never reaches the Responder (messages matched by the native
text shape (a) bypass this filter). -/
theorem c3_banner_suppression_amended (from_id to_id : JVal) (s : String)
    (h : startupMarker.data.isPrefixOf s.data = true) :
    classifyCommon (jstr s) from_id to_id = none ∧
    (∀ topic myNodeId, llmResponderReached myNodeId topic s none = false) := by
  have hs : ¬(s = "") := by
    intro hempty
    rw [hempty] at h
    exact absurd h (by decide)
  have h1 : classifyCommon (jstr s) from_id to_id = none := by
    simp [classifyCommon, jstr, JVal.truthy, JAtom.truthy, hs, h]
  refine ⟨h1, fun topic myNodeId => ?_⟩
  simp only [llmResponderReached, classifyLlm]
  rw [show classifyCommon (jstr s) (jstr (topicFromId topic)) (JVal.atom JAtom.null) = none
    from by simp [classifyCommon, jstr, JVal.truthy, JAtom.truthy, hs, h]]

/-- C3 witness: a marker-prefixed text arriving through the raw-text
fallback is dropped and never reaches the Responder. -/
theorem c3_banner_suppression_amended_witness :
    classifyCommon (jstr (startupMarker ++ " extra")) (jstr "u") (JVal.atom JAtom.null)
      = none ∧
    llmResponderReached (JVal.atom JAtom.null) "msh/US/2/json/llm"
        (startupMarker ++ " extra") none = false := by
  have h := c3_banner_suppression_amended (jstr "u") (JVal.atom JAtom.null)
    (startupMarker ++ " extra") (by decide)
  exact ⟨h.1, h.2 "msh/US/2/json/llm" (JVal.atom JAtom.null)⟩

/-- C6 counterexample: the spec's Scenario-1 input
`{"type":"text","payload":{"text":"hi"},"from":42}` on the dedicated topic
is matched by shape (a) and classified with `is_direct = false` (its
`to_id` defaults to `"broadcast"`), not `is_direct = true` as the claim
states for every recognized shape. -/
theorem c6_scenario1_counterexample :
    classifyLlm "msh/US/2/json/llm" ""
        (some (JDoc.obj [("type", jstr "text"),
                         ("payload", JVal.obj [("text", JAtom.str "hi")]),
                         ("from", JVal.atom (JAtom.num 42))]))
      = some { text := jstr "hi", from_id := jstr "42", to_id := jstr "broadcast",
               is_direct := false, is_llm_channel := true } := by
  decide

/-- C6 (amended): every dedicated-channel message classified through the
common path (matchers (b)-(e) and the raw-text fallback) has
`is_direct = true`; a message matched by the native text shape (a) instead
has `is_direct` equal to the test `to_id ≠ "broadcast"` (the source also
compares against the integer 4294967295, vacuously for the string-valued
`to_id`). -/
theorem c6_is_direct_amended (text from_id to_id : JVal) (data : JDoc) :
    (∀ m, classifyCommon text from_id to_id = some m → m.is_direct = true) ∧
    (∀ m, classifyCase1 data = some m →
      m.is_direct = decide (m.to_id ≠ jstr "broadcast")) := by
  constructor
  · intro m hm
    unfold classifyCommon at hm
    split at hm
    · exact absurd hm (by simp)
    · split at hm
      · split at hm
        · exact absurd hm (by simp)
        · cases hm
          rfl
      · exact absurd hm (by simp)
  · intro m hm
    simp only [classifyCase1] at hm
    split at hm
    · cases hm
      rfl
    · exact absurd hm (by simp)

/-- C6 witness: a common-path message (`{"text":"hi","from_id":"u"}`) is
classified with `is_direct = true`, and a shape-(a) message with
`to = 7` is classified with `is_direct` given by the broadcast test. -/
theorem c6_is_direct_amended_witness :
    ({ text := jstr "hi", from_id := jstr "u", to_id := jstr "broadcast",
       is_direct := true, is_llm_channel := true } : Msg).is_direct = true ∧
    ({ text := jstr "hi", from_id := jstr "42", to_id := jstr "7",
       is_direct := true, is_llm_channel := true } : Msg).is_direct
      = decide (({ text := jstr "hi", from_id := jstr "42", to_id := jstr "7",
                   is_direct := true, is_llm_channel := true } : Msg).to_id
          ≠ jstr "broadcast") := by
  constructor
  · exact (c6_is_direct_amended (jstr "hi") (jstr "u") (JVal.atom JAtom.null)
      (JDoc.obj [])).1 _ (by decide)
  · exact (c6_is_direct_amended (jstr "hi") (jstr "u") (JVal.atom JAtom.null)
      (JDoc.obj [("type", jstr "text"),
                 ("payload", JVal.obj [("text", JAtom.str "hi")]),
                 ("from", JVal.atom (JAtom.num 42)),
                 ("to", JVal.atom (JAtom.num 7))])).2 _ (by decide)

/-- C8: once a node-info event whose `longName` matches the identity label
`"llm_agent"` records the node id as self-identity, every inbound message
whose `from_id` equals that recorded identity is discarded before reaching
the Responder — on the dedicated-channel path (`_process_message`'s
feedback filter), on the regular path (dropped before queueing), and at
`_process_message` generally, regardless of origin. -/
theorem c8_feedback_suppression (prior : JVal) (nodeData : JDoc) (topic raw : String)
    (llparsed regparsed : Option JDoc)
    (hobj : nodeData.isObj = true)
    (hname : (nodeData.getD "user" (JVal.obj [])).getD "longName" (JAtom.str "unknown")
      = JAtom.str "llm_agent") :
    recordNodeInfo prior nodeData = nodeData.getD "num" (jstr "unknown") ∧
    (∀ m, classifyLlm topic raw llparsed = some m →
      m.from_id = recordNodeInfo prior nodeData →
      llmResponderReached (recordNodeInfo prior nodeData) topic raw llparsed = false) ∧
    (∀ data, regparsed = some data →
      data.getD "fromId" (jstr "unknown") = recordNodeInfo prior nodeData →
      classifyRegular (recordNodeInfo prior nodeData) regparsed = none) ∧
    (∀ m : Msg, m.from_id = recordNodeInfo prior nodeData →
      processMessage (recordNodeInfo prior nodeData) m = false) := by
  have hproc : ∀ m : Msg, m.from_id = recordNodeInfo prior nodeData →
      processMessage (recordNodeInfo prior nodeData) m = false := by
    intro m h
    unfold processMessage
    cases htext : m.text with
    | obj l => rfl
    | atom a =>
      cases a with
      | str s =>
        by_cases hs : s = ""
        · simp [hs]
        · simp [hs, h]
      | num n => rfl
      | null => rfl
  refine ⟨by simp [recordNodeInfo, hobj, hname], ?_, ?_, hproc⟩
  · intro m hcl hfrom
    unfold llmResponderReached
    rw [hcl]
    exact hproc m hfrom
  · intro data hp hfrom
    subst hp
    unfold classifyRegular
    by_cases hd : data.isObj = true
    · simp [hd, hfrom]
    · simp [hd]

/-- C8 witness: after node-info `{"num":7,"user":{"longName":"llm_agent"}}`
records identity 7, a dedicated-channel message with `from_id = 7` and a
regular message with `fromId = 7` are both discarded. -/
theorem c8_feedback_suppression_witness :
    llmResponderReached (JVal.atom (JAtom.num 7)) "t" ""
        (some (JDoc.obj [("text", jstr "hello"), ("from_id", JVal.atom (JAtom.num 7))]))
      = false ∧
    classifyRegular (JVal.atom (JAtom.num 7))
        (some (JDoc.obj [("fromId", JVal.atom (JAtom.num 7)), ("toId", jstr "broadcast"),
                         ("text", jstr "x")]))
      = none := by
  have h := c8_feedback_suppression (JVal.atom JAtom.null)
    (JDoc.obj [("num", JVal.atom (JAtom.num 7)),
               ("user", JVal.obj [("longName", JAtom.str "llm_agent")])])
    "t" ""
    (some (JDoc.obj [("text", jstr "hello"), ("from_id", JVal.atom (JAtom.num 7))]))
    (some (JDoc.obj [("fromId", JVal.atom (JAtom.num 7)), ("toId", jstr "broadcast"),
                     ("text", jstr "x")]))
    (by decide) (by decide)
  refine ⟨?_, ?_⟩
  · exact h.2.1
      { text := jstr "hello", from_id := JVal.atom (JAtom.num 7),
        to_id := jstr "broadcast", is_direct := true, is_llm_channel := true }
      (by decide) (by decide)
  · exact h.2.2.1
      (JDoc.obj [("fromId", JVal.atom (JAtom.num 7)), ("toId", jstr "broadcast"),
                 ("text", jstr "x")])
      rfl (by decide)

/-- Helper: a message of at most one chunk is kept whole. -/
lemma chunksOfGo_small (fuel : Nat) (s : List Char) (h : s.length ≤ maxChunkSize) :
    chunksOfGo fuel s = [s] := by
  cases fuel with
  | zero => rfl
  | succ n => simp [chunksOfGo, h]

/-- Helper: the chunks concatenate back to the original message (order and
content preserved). -/
lemma chunksOfGo_flatten (fuel : Nat) : ∀ s, (chunksOfGo fuel s).flatten = s := by
  induction fuel with
  | zero => intro s; simp [chunksOfGo]
  | succ n ih =>
    intro s
    by_cases h : s.length ≤ maxChunkSize
    · simp [chunksOfGo, h]
    · simp [chunksOfGo, h, ih, List.take_append_drop]

/-- Helper: with enough fuel every chunk is at most 190 long. -/
lemma chunksOfGo_sizes (fuel : Nat) :
    ∀ s, s.length ≤ fuel + maxChunkSize →
      ∀ p ∈ chunksOfGo fuel s, p.length ≤ maxChunkSize := by
  induction fuel with
  | zero =>
    intro s hs p hp
    simp [chunksOfGo] at hp
    subst hp
    simpa using hs
  | succ n ih =>
    intro s hs p hp
    by_cases h : s.length ≤ maxChunkSize
    · simp [chunksOfGo, h] at hp
      subst hp
      exact h
    · simp only [chunksOfGo, h, if_false, List.mem_cons] at hp
      rcases hp with hp | hp
      · subst hp
        simp [List.length_take]
      · refine ih (s.drop maxChunkSize) ?_ p hp
        simp only [List.length_drop]
        simp only [maxChunkSize] at hs ⊢
        omega

/-- Helper: with enough fuel the number of chunks is `⌈length / 190⌉`. -/
lemma chunksOfGo_count (fuel : Nat) :
    ∀ s : List Char, s.length ≤ fuel + maxChunkSize → 0 < s.length →
      (chunksOfGo fuel s).length = (s.length + 189) / 190 := by
  induction fuel with
  | zero =>
    intro s hs hpos
    simp only [chunksOfGo, List.length_singleton]
    simp only [maxChunkSize, Nat.zero_add] at hs
    omega
  | succ n ih =>
    intro s hs hpos
    by_cases h : s.length ≤ maxChunkSize
    · simp only [chunksOfGo, h, if_true, List.length_singleton]
      simp only [maxChunkSize] at h
      omega
    · have hdrop := ih (s.drop maxChunkSize)
        (by simp only [List.length_drop]; simp only [maxChunkSize] at hs ⊢; omega)
        (by simp only [List.length_drop]; simp only [maxChunkSize] at h ⊢; omega)
      simp only [chunksOfGo, h, if_false, List.length_cons, hdrop, List.length_drop]
      simp only [maxChunkSize] at h ⊢
      omega

lemma chunksOf_flatten (s : List Char) : (chunksOf s).flatten = s :=
  chunksOfGo_flatten s.length s

lemma chunksOf_sizes (s : List Char) : ∀ p ∈ chunksOf s, p.length ≤ maxChunkSize :=
  chunksOfGo_sizes s.length s (by omega)

lemma chunksOf_count (s : List Char) (h : 0 < s.length) :
    (chunksOf s).length = (s.length + 189) / 190 :=
  chunksOfGo_count s.length s (by omega) h

/-- C5 (amended): `send_message` chunks by character count, not bytes: a
text of at most 190 characters is sent as exactly one untagged chunk; a
longer text is sent as `⌈L/190⌉` chunks (`L` its character length) whose
payloads are each at most 190 characters long and concatenate, in order,
back to the original text, with every chunk carrying the `"[i/n] "`
marker. -/
theorem c5_chunking (msg : List Char) :
    (msg.length ≤ 190 → sentChunks msg = [msg]) ∧
    (190 < msg.length →
      ∃ payloads : List (List Char),
        payloads.length = (msg.length + 189) / 190 ∧
        payloads.flatten = msg ∧
        (∀ p ∈ payloads, p.length ≤ 190) ∧
        sentChunks msg
          = payloads.enum.map (fun q => chunkTag (q.1 + 1) payloads.length ++ q.2)) := by
  constructor
  · intro h
    have h1 : chunksOf msg = [msg] :=
      chunksOfGo_small msg.length msg (by simpa [maxChunkSize] using h)
    simp [sentChunks, h1]
  · intro h
    have hcount := chunksOf_count msg (by omega)
    have h2 : (chunksOf msg).length > 1 := by
      rw [hcount]; omega
    refine ⟨chunksOf msg, hcount, chunksOf_flatten msg,
      (by simpa [maxChunkSize] using chunksOf_sizes msg), ?_⟩
    simp [sentChunks, h2]

/-- C5 witness: a 3-character text goes out whole and untagged; a
400-character text goes out as tagged chunks. -/
theorem c5_chunking_witness :
    sentChunks (List.replicate 3 'a') = [List.replicate 3 'a'] ∧
    (∃ payloads : List (List Char),
      payloads.length = ((List.replicate 400 'a').length + 189) / 190 ∧
      payloads.flatten = List.replicate 400 'a' ∧
      (∀ p ∈ payloads, p.length ≤ 190) ∧
      sentChunks (List.replicate 400 'a')
        = payloads.enum.map (fun q => chunkTag (q.1 + 1) payloads.length ++ q.2)) :=
  ⟨(c5_chunking (List.replicate 3 'a')).1 (by norm_num),
   (c5_chunking (List.replicate 400 'a')).2 (by norm_num)⟩

set_option maxRecDepth 8192 in
/-- C5 counterexample: the 190 bound of `send_message` counts characters,
not bytes.  200 copies of the two-byte character 'é' are split into a
190-character first payload of 380 UTF-8 bytes — over the claimed 190-byte
payload bound — and 100 copies of the four-byte U+1F4E2 (400 bytes, which
a byte reading must split into `⌈400/190⌉ = 3` tagged chunks) go out as a
single untagged chunk. -/
theorem c5_byte_bound_counterexample :
    chunksOf (List.replicate 200 'é')
      = [List.replicate 190 'é', List.replicate 10 'é'] ∧
    utf8Len (List.replicate 190 'é') = 380 ∧
    ¬((380 : Nat) ≤ 190) ∧
    sentChunks (List.replicate 100 '📢') = [List.replicate 100 '📢'] ∧
    utf8Len (List.replicate 100 '📢') = 400 := by
  exact ⟨by decide, by decide, by decide, by decide, by decide⟩

/-- Helper: a reset at chunk `k` (all earlier chunk sends succeeding)
truncates the chunk sequence and appends one send of the full original
text; the result is the retry outcome. -/
lemma sendChunksLoop_reset (full : List Char) :
    ∀ (k : Nat) (chunks : List (List Char)) (rest : List SendOutcome),
      k < chunks.length →
      sendChunksLoop full true chunks
          (List.replicate k SendOutcome.ok ++ SendOutcome.reset :: rest)
        = (chunks.take (k + 1) ++ [full],
           decide (rest.headD SendOutcome.ok = SendOutcome.ok)) := by
  intro k
  induction k with
  | zero =>
    intro chunks rest h
    match chunks, h with
    | c :: t, _ => simp [sendChunksLoop]
  | succ n ih =>
    intro chunks rest h
    match chunks, h with
    | c :: t, hh =>
      have h2 := ih t rest (by simp only [List.length_cons] at hh; omega)
      simp [sendChunksLoop, List.replicate_succ, h2]

/-- C10: if Outbound `send` hits a transport reset on the `k`-th chunk and
the reconnect succeeds, the single retry passes the original full text to
one `sendText` call — not re-split into ≤190-character chunks and carrying
no `"[i/n] "` marker — whatever the length of the text; the call's result
is the outcome of that retry. -/
theorem c10_reset_retry_full_text (msg : List Char) (k : Nat) (rest : List SendOutcome)
    (hk : k < (sentChunks msg).length) :
    sendMessage msg true true (List.replicate k SendOutcome.ok ++ SendOutcome.reset :: rest)
      = ((sentChunks msg).take (k + 1) ++ [msg],
         decide (rest.headD SendOutcome.ok = SendOutcome.ok)) := by
  simp [sendMessage, sendChunksLoop_reset msg k (sentChunks msg) rest hk]

/-- Helper: the chunk list is never empty (even the empty message yields
one chunk), so the first chunk always exists. -/
lemma chunksOfGo_ne_nil (fuel : Nat) (s : List Char) : chunksOfGo fuel s ≠ [] := by
  cases fuel with
  | zero => simp [chunksOfGo]
  | succ n =>
    by_cases h : s.length ≤ maxChunkSize <;> simp [chunksOfGo, h]

/-- Helper: at least one text is always handed to `sendText`. -/
lemma sentChunks_pos (msg : List Char) : 0 < (sentChunks msg).length := by
  rw [sentChunks]
  by_cases h : (chunksOf msg).length > 1
  · simp only [h, if_true, List.length_map, List.enum_length]
    omega
  · simp only [h, if_false]
    exact List.length_pos.mpr (chunksOfGo_ne_nil _ _)

/-- C10 witness: a 400-character text, reset on the first (tagged) chunk,
is retried as one send of the whole untagged 400-character text and the
call succeeds. -/
theorem c10_reset_retry_full_text_witness :
    sendMessage (List.replicate 400 'a') true true
        (List.replicate 0 SendOutcome.ok ++ SendOutcome.reset :: [])
      = ((sentChunks (List.replicate 400 'a')).take (0 + 1) ++ [List.replicate 400 'a'],
         decide (List.headD [] SendOutcome.ok = SendOutcome.ok)) :=
  c10_reset_retry_full_text (List.replicate 400 'a') 0 []
    (sentChunks_pos (List.replicate 400 'a'))

/-- Helper: the `_send_response_via_tcp` retry loop is some `tcp_client.
send_message` attempts followed by the dedicated-channel tail. -/
lemma replyLoop_decomp (d : Bool) (sm : Nat → Bool) (tail : List ReplyAction) :
    ∀ (r a : Nat), ∃ pre : List ReplyAction,
      replyLoop d sm tail a r = pre ++ tail ∧
      ∀ x ∈ pre, ∃ ok, x = ReplyAction.tcpSend d ok := by
  intro r
  induction r with
  | zero =>
    intro a
    exact ⟨[ReplyAction.tcpSend d (sm a)], by simp [replyLoop], by simp⟩
  | succ n ih =>
    intro a
    cases h : sm a with
    | true =>
      refine ⟨[ReplyAction.tcpSend d true], by simp [replyLoop, h], by simp⟩
    | false =>
      obtain ⟨pre, h1, h2⟩ := ih (a + 1)
      refine ⟨ReplyAction.tcpSend d false :: pre, by simp [replyLoop, h, h1], ?_⟩
      intro x hx
      rcases List.mem_cons.mp hx with hx | hx
      · exact ⟨false, hx⟩
      · exact h2 x hx

/-- C1: for a dedicated-channel-origin reply (feature enabled, response
topic configured), the Router always attempts Outbound `send_to_channel`;
if that attempt fails, the MQTT fallback publish through the Inbound link
happens and is the final action of the reply (nothing runs after it, so
the fallback is never reversed); no action other than possibly the last is
the MQTT fallback; and a regular-origin reply performs only `send_message`
attempts — neither `send_to_channel` nor the MQTT fallback is ever used
for it. -/
theorem c1_reply_policy (privateMode isDirect : Bool) (rc : String)
    (sm : Nat → Bool) (stcOk mqttOk : Bool) :
    (ReplyAction.tcpChannel (channelNameOf rc) stcOk ∈
      sendResponseViaTcp privateMode isDirect true true (some rc) sm stcOk mqttOk) ∧
    (stcOk = false →
      (sendResponseViaTcp privateMode isDirect true true (some rc) sm stcOk mqttOk).getLast?
        = some (ReplyAction.mqttPublish mqttOk)) ∧
    (∀ b, ReplyAction.mqttPublish b ∈
        (sendResponseViaTcp privateMode isDirect true true (some rc) sm stcOk
          mqttOk).dropLast → False) ∧
    (∀ x ∈ sendResponseViaTcp privateMode isDirect false true (some rc) sm stcOk mqttOk,
      ∃ ok, x = ReplyAction.tcpSend (privateMode || isDirect) ok) := by
  obtain ⟨pre, he, hp⟩ := replyLoop_decomp (privateMode || isDirect) sm
    (llmChannelStep true true (some rc) stcOk mqttOk) 2 0
  have htail : llmChannelStep true true (some rc) stcOk mqttOk
      = ReplyAction.tcpChannel (channelNameOf rc) stcOk ::
          (if stcOk then [] else [ReplyAction.mqttPublish mqttOk]) := by
    simp [llmChannelStep]
  refine ⟨?_, ?_, ?_, ?_⟩
  · rw [sendResponseViaTcp, he, htail]
    exact List.mem_append_right _ (List.mem_cons_self _ _)
  · intro hfail
    rw [sendResponseViaTcp, he, htail, hfail]
    rw [if_neg (by simp)]
    rw [show pre ++ ReplyAction.tcpChannel (channelNameOf rc) false ::
          [ReplyAction.mqttPublish mqttOk]
        = (pre ++ [ReplyAction.tcpChannel (channelNameOf rc) false]) ++
            [ReplyAction.mqttPublish mqttOk] from by simp]
    exact List.getLast?_concat _
  · intro b hb
    rw [sendResponseViaTcp, he, htail] at hb
    cases hstc : stcOk with
    | true =>
      rw [hstc] at hb
      rw [if_pos rfl] at hb
      rw [List.dropLast_concat] at hb
      obtain ⟨ok, hok⟩ := hp _ hb
      exact ReplyAction.noConfusion hok
    | false =>
      rw [hstc] at hb
      rw [if_neg (by simp)] at hb
      rw [show pre ++ ReplyAction.tcpChannel (channelNameOf rc) false ::
            [ReplyAction.mqttPublish mqttOk]
          = (pre ++ [ReplyAction.tcpChannel (channelNameOf rc) false]) ++
              [ReplyAction.mqttPublish mqttOk] from by simp,
        List.dropLast_concat] at hb
      rcases List.mem_append.mp hb with hb | hb
      · obtain ⟨ok, hok⟩ := hp _ hb
        exact ReplyAction.noConfusion hok
      · exact ReplyAction.noConfusion (List.mem_singleton.mp hb)
  · intro x hx
    obtain ⟨pre2, he2, hp2⟩ := replyLoop_decomp (privateMode || isDirect) sm
      (llmChannelStep false true (some rc) stcOk mqttOk) 2 0
    rw [sendResponseViaTcp, he2, show llmChannelStep false true (some rc) stcOk mqttOk
        = [] from by simp [llmChannelStep], List.append_nil] at hx
    exact hp2 x hx

/-- C1 witness: with `send_message` succeeding and `send_to_channel`
failing, the reply ends with the MQTT fallback publish. -/
theorem c1_reply_policy_witness :
    (sendResponseViaTcp false false true true (some "msh/US/2/json/llmres/")
        (fun _ => true) false true).getLast?
      = some (ReplyAction.mqttPublish true) :=
  (c1_reply_policy false false "msh/US/2/json/llmres/" (fun _ => true) false true).2.1 rfl

end MeshBridge
